import Mathlib

/-!
# Verification of the github-webhook-pusher delivery pipeline

A shallow embedding of the webhook delivery pipeline of the
`github-webhook-pusher` Koishi plugin, together with theorems checking the
natural-language specification against it.

Embedding choices:
* Payloads are dynamically typed in the source (`payload: any`), so they are
  modelled by a `Json` value type.  JavaScript member access `a.b` and the
  optional chain `a?.b` are both modelled by `Json.get`, which yields
  `Json.null` when the member is missing or the receiver is not an object
  (the cases where real JavaScript would throw a `TypeError` — a receiver
  that is `null`/`undefined` under plain access — are excluded by explicit
  shape hypotheses in the theorems).
* JavaScript truthiness of a value is `Json.truthy`; truthiness of a plain
  string is `strTruthy`.
* HMAC-SHA256 (node `crypto`, external to the repository) is an abstract
  function parameter `hmacHex : String → String → String` mapping
  (secret, payload) to the hex digest.  `JSON.parse` (a JavaScript builtin)
  is likewise an abstract parameter `parseJson : String → Option Json`.
* The database (`ctx.database`) is an explicit `Db` record of the three
  tables; `get` with an equality filter becomes `List.filter`, `create`
  appends a row.
* Async I/O is modelled by explicit state passing; the send transport is a
  parameter `send : PushTarget → Option String` (`none` = success, `some e`
  = the send threw error `e`), and the set of registered bots is the list of
  their platform names.
* The pipeline additionally returns a `List Step` trace recording which
  collaborators were invoked, in invocation order, so that "X happens
  before Y" and "Z is never called" sentences of the spec become statements
  about the trace.
-/

namespace GithubWebhookPusher

/-! ## JSON value model -/

/-- A JSON value as seen by the dynamically typed TypeScript code.
`null` also stands for JavaScript `undefined` (absent member). -/
inductive Json where
  | null : Json
  | bool : Bool → Json
  | num : Int → Json
  | str : String → Json
  | arr : List Json → Json
  | obj : List (String × Json) → Json

/-- JavaScript truthiness of a plain string: `""` is falsy. -/
def strTruthy (s : String) : Bool := !s.data.isEmpty

/-- JavaScript truthiness of a value. -/
def Json.truthy : Json → Bool
  | .null => false
  | .bool b => b
  | .num n => n != 0
  | .str s => strTruthy s
  | .arr _ => true
  | .obj _ => true

/-- Member access `j.k` / `j?.k`: the first binding of the key in an object,
`null` (i.e. `undefined`) otherwise. -/
def Json.get (j : Json) (key : String) : Json :=
  match j with
  | .obj fields =>
    match fields.find? (fun f => f.1 == key) with
    | some f => f.2
    | none => .null
  | _ => .null

/-- A string-valued member read where the source stores the value into a
string field (provider payloads carry strings there). -/
def Json.asStr : Json → String
  | .str s => s
  | _ => ""

/-- An optional string-valued member. -/
def Json.asStrOpt : Json → Option String
  | .str s => some s
  | _ => none

/-- An optional number-valued member. -/
def Json.asIntOpt : Json → Option Int
  | .num n => some n
  | _ => none

/-- Model of `(xs || [])` applied to a member expected to be an array or absent. -/
def Json.asArr : Json → List Json
  | .arr xs => xs
  | _ => []

/-- JavaScript `a || b` on values. -/
def jsOr (a b : Json) : Json := if a.truthy then a else b

/-- JavaScript `a || b || ...` where the operands are string-or-absent
members and the result is used as a string. -/
def jsStrOr (j : Json) (d : String) : String :=
  match j with
  | .str s => if strTruthy s then s else d
  | _ => d

/-- JavaScript `x.length === 0` where `x` is already known truthy:
arrays and strings have a numeric `length`, any other value yields
`undefined === 0`, i.e. `false`. -/
def jsLengthEqZero : Json → Bool
  | .arr xs => xs.length == 0
  | .str s => s.data.isEmpty
  | _ => false

/-- JavaScript `String.prototype.replace` with a plain-string pattern
replaces only the first occurrence (character-level recursion; the pattern
is never empty at the call sites). -/
def replaceFirstChars (pat repl : List Char) : List Char → List Char
  | [] => []
  | c :: cs =>
    if List.isPrefixOf pat (c :: cs) then repl ++ (c :: cs).drop pat.length
    else c :: replaceFirstChars pat repl cs

/-- JavaScript `s.replace(pat, repl)` on strings. -/
def replaceFirst (s pat repl : String) : String :=
  ⟨replaceFirstChars pat.data repl.data s.data⟩

/-- The characters before the first newline. -/
def firstLineChars : List Char → List Char
  | [] => []
  | c :: cs => if c = '\n' then [] else c :: firstLineChars cs

/-- JavaScript `s.split('\n')[0]`: the first line of a string (the split
always yields at least one element, so the index never misses). -/
def firstLine (s : String) : String := ⟨firstLineChars s.data⟩

/-! ## Signature functions (`src/signature.ts`) -/

/-- Model of `createSignature(payload, secret)`: `"sha256=" + hex(HMAC-SHA256(secret, payload))`.
The digest comes from node `crypto`, abstracted as `hmacHex secret payload`. -/
def createSignature (hmacHex : String → String → String)
    (payload secret : String) : String :=
  "sha256=" ++ hmacHex secret payload

/-- Model of `verifySignature(payload, signature, secret)`.  The prefix test
`signature.startsWith('sha256=')` is the character-sequence prefix test;
`timingSafeEqual` over the two UTF-8 buffers is equality of the strings,
guarded (as in the source) by a byte-length comparison. -/
def verifySignature (hmacHex : String → String → String)
    (payload signature secret : String) : Bool :=
  if signature.data.isEmpty || !(List.isPrefixOf "sha256=".data signature.data) then
    false
  else
    let expected := createSignature hmacHex payload secret
    if signature.utf8ByteSize = expected.utf8ByteSize then
      signature = expected
    else
      false

/-! ## Canonical event model (`src/types.ts`, `src/parser.ts`) -/

/-- The twelve supported event kinds (`EventType` in `src/types.ts`). -/
inductive EventType where
  | issues
  | issue_comment
  | release
  | push
  | pull_request
  | pull_request_review
  | pull_request_review_comment
  | star
  | fork
  | create
  | delete
  | workflow_run
deriving DecidableEq, Repr, Inhabited

/-- One displayed commit of a push event (`CommitInfo` in `src/types.ts`). -/
structure CommitInfo where
  sha : String
  message : String
  author : String
  url : String
deriving DecidableEq, Repr

/-- The normalized event (`ParsedEvent` in `src/types.ts`).  Optional fields
model object-literal keys that a given extractor does not set. -/
structure ParsedEvent where
  type : EventType
  displayType : String
  repo : String
  actor : String
  action : Option String := none
  title : Option String := none
  number : Option Int := none
  url : Option String := none
  body : Option String := none
  ref : Option String := none
  commits : Option (List CommitInfo) := none
  totalCommits : Option Nat := none
  tagName : Option String := none
  starCount : Option Int := none
deriving DecidableEq, Repr, Inhabited

/-- Modelled from the spec: `getDisplayType` lives in `src/types.ts`, which is
not among the provided sources.  The spec only requires a display name per
kind (push-class renders as "Commit"); no claim depends on the exact
strings. -/
def getDisplayType : EventType → String
  | .issues => "Issue"
  | .issue_comment => "Issue Comment"
  | .release => "Release"
  | .push => "Commit"
  | .pull_request => "PR"
  | .pull_request_review => "PR Review"
  | .pull_request_review_comment => "PR Review Comment"
  | .star => "Star"
  | .fork => "Fork"
  | .create => "Create"
  | .delete => "Delete"
  | .workflow_run => "Workflow"

/-- Modelled from the spec: `getEventEmoji` lives in `src/types.ts`, which is
not among the provided sources.  The spec only requires an emoji per kind;
no claim depends on the exact strings. -/
def getEventEmoji : EventType → String
  | .issues => "📌"
  | .issue_comment => "💬"
  | .release => "🚀"
  | .push => "⬆️"
  | .pull_request => "🔀"
  | .pull_request_review => "📝"
  | .pull_request_review_comment => "💬"
  | .star => "⭐"
  | .fork => "🍴"
  | .create => "🌱"
  | .delete => "🗑️"
  | .workflow_run => "⚙️"

/-! ## Event parsers (`src/parser.ts`) -/

/-- Model of `MAX_COMMITS`: maximum number of commits displayed for a push event. -/
def MAX_COMMITS : Nat := 3

/-- The `[...""...].includes(action)` allow-list check shared by the
extractors: the payload action is a string contained in the fixed list
(`includes` uses strict equality, so a non-string action never matches). -/
def actionAllowed (allow : List String) (action : Json) : Bool :=
  match action with
  | .str s => allow.contains s
  | _ => false

/-- Model of `repository.full_name` as used by every extractor. -/
def repoOf (payload : Json) : String :=
  ((payload.get "repository").get "full_name").asStr

/-- Model of `sender.login` as used by every extractor. -/
def actorOf (payload : Json) : String :=
  ((payload.get "sender").get "login").asStr

/-- Model of `parseIssuesEvent`. -/
def parseIssuesEvent (payload : Json) : Option ParsedEvent :=
  let action := payload.get "action"
  let issue := payload.get "issue"
  if !actionAllowed ["opened", "closed", "reopened", "edited"] action then
    none
  else
    some { type := .issues, displayType := getDisplayType .issues,
           repo := repoOf payload, actor := actorOf payload,
           action := some action.asStr,
           title := (issue.get "title").asStrOpt,
           number := (issue.get "number").asIntOpt,
           url := (issue.get "html_url").asStrOpt,
           body := (issue.get "body").asStrOpt }

/-- Model of `parseIssueCommentEvent`. -/
def parseIssueCommentEvent (payload : Json) : Option ParsedEvent :=
  let action := payload.get "action"
  let issue := payload.get "issue"
  let comment := payload.get "comment"
  if !actionAllowed ["created", "edited", "deleted"] action then
    none
  else
    some { type := .issue_comment, displayType := getDisplayType .issue_comment,
           repo := repoOf payload, actor := actorOf payload,
           action := some action.asStr,
           title := (issue.get "title").asStrOpt,
           number := (issue.get "number").asIntOpt,
           url := (jsOr (comment.get "html_url") (issue.get "html_url")).asStrOpt,
           body := (comment.get "body").asStrOpt }

/-- Model of `parseReleaseEvent`. -/
def parseReleaseEvent (payload : Json) : Option ParsedEvent :=
  let action := payload.get "action"
  let release := payload.get "release"
  if !actionAllowed ["published", "created"] action then
    none
  else
    some { type := .release, displayType := getDisplayType .release,
           repo := repoOf payload, actor := actorOf payload,
           action := some action.asStr,
           title := (jsOr (release.get "name") (release.get "tag_name")).asStrOpt,
           tagName := (release.get "tag_name").asStrOpt,
           url := (release.get "html_url").asStrOpt,
           body := (release.get "body").asStrOpt }

/-- Model of `ref?.replace('refs/heads/', '') || ''` of `parsePushEvent`. -/
def pushBranch (payload : Json) : String :=
  match payload.get "ref" with
  | .str s => replaceFirst s "refs/heads/" ""
  | _ => ""

/-- The per-commit mapping of `parsePushEvent`: hash truncated to 7
characters, message reduced to its first line, author name falling back to
username, each defaulting to the empty string. -/
def parseCommit (commit : Json) : CommitInfo :=
  { sha := match commit.get "id" with
           | .str s => s.take 7
           | _ => ""
    message := match commit.get "message" with
               | .str s => firstLine s
               | _ => ""
    author := jsStrOr ((commit.get "author").get "name")
                (jsStrOr ((commit.get "author").get "username") "")
    url := jsStrOr (commit.get "url") "" }

/-- Model of `parsePushEvent`: a ref update with no commits but a `created`/`deleted`
flag becomes a ref-create/delete event; otherwise a push event with the
commit list truncated to `MAX_COMMITS` and the true count retained. -/
def parsePushEvent (payload : Json) : Option ParsedEvent :=
  let commits := payload.get "commits"
  let created := payload.get "created"
  let deleted := payload.get "deleted"
  let branch := pushBranch payload
  if (!commits.truthy || jsLengthEqZero commits) && (created.truthy || deleted.truthy) then
    let type := if created.truthy then EventType.create else EventType.delete
    some { type := type, displayType := getDisplayType type,
           repo := repoOf payload, actor := actorOf payload,
           action := some (if created.truthy then "创建分支" else "删除分支"),
           ref := some branch,
           url := ((payload.get "repository").get "html_url").asStrOpt }
  else
    let allCommits := commits.asArr.map parseCommit
    let displayCommits := allCommits.take MAX_COMMITS
    some { type := .push, displayType := getDisplayType .push,
           repo := repoOf payload, actor := actorOf payload,
           ref := some branch,
           commits := some displayCommits,
           totalCommits := some allCommits.length,
           url := (jsOr (payload.get "compare")
                    (.str ("https://github.com/" ++ repoOf payload))).asStrOpt }

/-- Model of `parsePullRequestEvent`: the `closed` action with a truthy `merged` flag
is re-tagged as the derived `merged` action. -/
def parsePullRequestEvent (payload : Json) : Option ParsedEvent :=
  let action := payload.get "action"
  let pr := payload.get "pull_request"
  if !actionAllowed ["opened", "closed", "reopened", "edited"] action then
    none
  else
    let actualAction :=
      if action.asStr == "closed" && (pr.get "merged").truthy then "merged"
      else action.asStr
    some { type := .pull_request, displayType := getDisplayType .pull_request,
           repo := repoOf payload, actor := actorOf payload,
           action := some actualAction,
           title := (pr.get "title").asStrOpt,
           number := (pr.get "number").asIntOpt,
           url := (pr.get "html_url").asStrOpt,
           body := (pr.get "body").asStrOpt }

/-- Model of `parsePullRequestReviewEvent`. -/
def parsePullRequestReviewEvent (payload : Json) : Option ParsedEvent :=
  let action := payload.get "action"
  let review := payload.get "review"
  let pr := payload.get "pull_request"
  if !actionAllowed ["submitted", "edited", "dismissed"] action then
    none
  else
    some { type := .pull_request_review,
           displayType := getDisplayType .pull_request_review,
           repo := repoOf payload, actor := actorOf payload,
           action := some ((jsOr (review.get "state") action).asStr),
           title := (pr.get "title").asStrOpt,
           number := (pr.get "number").asIntOpt,
           url := (jsOr (review.get "html_url") (pr.get "html_url")).asStrOpt,
           body := (review.get "body").asStrOpt }

/-- Model of `parsePullRequestReviewCommentEvent`. -/
def parsePullRequestReviewCommentEvent (payload : Json) : Option ParsedEvent :=
  let action := payload.get "action"
  let comment := payload.get "comment"
  let pr := payload.get "pull_request"
  if !actionAllowed ["created", "edited", "deleted"] action then
    none
  else
    some { type := .pull_request_review_comment,
           displayType := getDisplayType .pull_request_review_comment,
           repo := repoOf payload, actor := actorOf payload,
           action := some action.asStr,
           title := (pr.get "title").asStrOpt,
           number := (pr.get "number").asIntOpt,
           url := (jsOr (comment.get "html_url") (pr.get "html_url")).asStrOpt,
           body := (comment.get "body").asStrOpt }

/-- Model of `parseStarEvent`. -/
def parseStarEvent (payload : Json) : Option ParsedEvent :=
  let action := payload.get "action"
  if !actionAllowed ["created", "deleted"] action then
    none
  else
    some { type := .star, displayType := getDisplayType .star,
           repo := repoOf payload, actor := actorOf payload,
           action := some action.asStr,
           starCount := ((payload.get "repository").get "stargazers_count").asIntOpt,
           url := ((payload.get "repository").get "html_url").asStrOpt }

/-- Model of `parseForkEvent`. -/
def parseForkEvent (payload : Json) : Option ParsedEvent :=
  let forkee := payload.get "forkee"
  some { type := .fork, displayType := getDisplayType .fork,
         repo := repoOf payload, actor := actorOf payload,
         action := some "forked",
         title := (forkee.get "full_name").asStrOpt,
         url := (jsOr (forkee.get "html_url")
                  ((payload.get "repository").get "html_url")).asStrOpt }

/-- Model of `parseCreateEvent`. -/
def parseCreateEvent (payload : Json) : Option ParsedEvent :=
  let ref := payload.get "ref"
  let refType := payload.get "ref_type"
  some { type := .create, displayType := getDisplayType .create,
         repo := repoOf payload, actor := actorOf payload,
         action := some "created",
         ref := if ref.truthy then some (refType.asStr ++ ":" ++ ref.asStr)
                else refType.asStrOpt,
         url := ((payload.get "repository").get "html_url").asStrOpt }

/-- Model of `parseDeleteEvent`. -/
def parseDeleteEvent (payload : Json) : Option ParsedEvent :=
  let ref := payload.get "ref"
  let refType := payload.get "ref_type"
  some { type := .delete, displayType := getDisplayType .delete,
         repo := repoOf payload, actor := actorOf payload,
         action := some "deleted",
         ref := if ref.truthy then some (refType.asStr ++ ":" ++ ref.asStr)
                else refType.asStrOpt,
         url := ((payload.get "repository").get "html_url").asStrOpt }

/-- Model of `parseWorkflowRunEvent`. -/
def parseWorkflowRunEvent (payload : Json) : Option ParsedEvent :=
  let action := payload.get "action"
  let run := payload.get "workflow_run"
  if !actionAllowed ["requested", "completed"] action then
    none
  else
    let conclusion :=
      if (run.get "conclusion").truthy then "/" ++ (run.get "conclusion").asStr
      else ""
    some { type := .workflow_run, displayType := getDisplayType .workflow_run,
           repo := repoOf payload, actor := actorOf payload,
           action := some (action.asStr ++ conclusion),
           title := (run.get "name").asStrOpt,
           url := (jsOr (run.get "html_url")
                    ((payload.get "repository").get "html_url")).asStrOpt }

/-- Model of `parseEvent`: dispatch on the `X-GitHub-Event` header value; an
unrecognized event name yields `none`. -/
def parseEvent (eventName : String) (payload : Json) : Option ParsedEvent :=
  if eventName == "issues" then parseIssuesEvent payload
  else if eventName == "issue_comment" then parseIssueCommentEvent payload
  else if eventName == "release" then parseReleaseEvent payload
  else if eventName == "push" then parsePushEvent payload
  else if eventName == "pull_request" then parsePullRequestEvent payload
  else if eventName == "pull_request_review" then parsePullRequestReviewEvent payload
  else if eventName == "pull_request_review_comment" then
    parsePullRequestReviewCommentEvent payload
  else if eventName == "star" then parseStarEvent payload
  else if eventName == "fork" then parseForkEvent payload
  else if eventName == "create" then parseCreateEvent payload
  else if eventName == "delete" then parseDeleteEvent payload
  else if eventName == "workflow_run" then parseWorkflowRunEvent payload
  else none

/-! ## Message builder (`src/message.ts`)

A Koishi `Element[]` message is a single text element whose content is the
line list joined with a newline; it is modelled by the content string. -/

/-- Model of `getActionText`. -/
def getActionText (action : Option String) : String :=
  let a := action.getD ""
  let actionMap : List (String × String) :=
    [("opened", "opened"), ("closed", "closed"), ("reopened", "reopened"),
     ("edited", "edited"), ("merged", "merged"), ("published", "published"),
     ("created", "created"), ("deleted", "deleted"), ("submitted", "submitted"),
     ("dismissed", "dismissed"), ("approved", "approved"),
     ("changes_requested", "changes requested"), ("commented", "commented"),
     ("requested", "requested"), ("completed", "completed"), ("forked", "forked")]
  match actionMap.find? (fun p => p.1 == a) with
  | some p => p.2
  | none => a

/-- The shared header line `{emoji} [{repo}] {displayType}`. -/
def headerLine (event : ParsedEvent) : String :=
  getEventEmoji event.type ++ " [" ++ event.repo ++ "] " ++ event.displayType

/-- The three-line `actor action #number: title` template shared by the
issue, comment, pull-request and review builders. -/
def buildNumberedMessage (event : ParsedEvent) : List String :=
  [headerLine event,
   event.actor ++ " " ++ getActionText event.action ++ " #" ++
     toString (event.number.getD 0) ++ ": " ++ (event.title.getD ""),
   event.url.getD ""]

/-- Model of `buildPushMessage` as its list of lines, before joining with `'\n'`. -/
def buildPushMessageLines (event : ParsedEvent) : List String :=
  let commits := event.commits.getD []
  -- `event.totalCommits || commits.length` (`0` is falsy)
  let total := match event.totalCommits with
               | some n => if n == 0 then commits.length else n
               | none => commits.length
  let head := [headerLine event,
               event.actor ++ " 推送了 " ++ toString total ++ " 个提交到 " ++
                 (event.ref.getD ""),
               ""]
  let commitLines := commits.map (fun c => "• " ++ c.sha ++ " - " ++ c.message)
  let moreLines := if commits.length < total then
                     ["", "还有 " ++ toString (total - commits.length) ++ " 条提交..."]
                   else []
  head ++ commitLines ++ moreLines ++ [event.url.getD ""]

/-- Model of `buildReleaseMessage` lines. -/
def buildReleaseMessageLines (event : ParsedEvent) : List String :=
  [headerLine event,
   event.actor ++ " " ++ getActionText event.action ++ " " ++
     (match event.tagName with
      | some t => if strTruthy t then t else event.title.getD ""
      | none => event.title.getD ""),
   event.url.getD ""]

/-- Model of `buildStarMessage` lines. -/
def buildStarMessageLines (event : ParsedEvent) : List String :=
  [headerLine event,
   event.actor ++ " " ++
     (if event.action == some "created" then "starred" else "unstarred") ++
     " (⭐ " ++ toString (event.starCount.getD 0) ++ ")",
   event.url.getD ""]

/-- Model of `buildForkMessage` lines. -/
def buildForkMessageLines (event : ParsedEvent) : List String :=
  [headerLine event,
   event.actor ++ " forked" ++
     (match event.title with | some t => " -> " ++ t | none => ""),
   event.url.getD ""]

/-- Model of `buildCreateMessage` / `buildDeleteMessage` / `buildWorkflowRunMessage`
lines: `actor action` plus an optional trailing field. -/
def buildRefMessageLines (event : ParsedEvent) (extra : Option String) :
    List String :=
  [headerLine event,
   event.actor ++ " " ++ getActionText event.action ++
     (match extra with | some t => " " ++ t | none => ""),
   event.url.getD ""]

/-- Model of `buildGenericMessage` lines. -/
def buildGenericMessageLines (event : ParsedEvent) : List String :=
  [headerLine event,
   event.actor ++ " " ++ (match event.action with
                          | some a => if strTruthy a then a else "triggered"
                          | none => "triggered"),
   event.url.getD ""]

/-- Model of `buildMessage`: dispatch on the event kind, join the lines. -/
def buildMessage (event : ParsedEvent) : String :=
  String.intercalate "\n"
    (match event.type with
     | .issues => buildNumberedMessage event
     | .issue_comment => buildNumberedMessage event
     | .release => buildReleaseMessageLines event
     | .push => buildPushMessageLines event
     | .pull_request => buildNumberedMessage event
     | .pull_request_review => buildNumberedMessage event
     | .pull_request_review_comment => buildNumberedMessage event
     | .star => buildStarMessageLines event
     | .fork => buildForkMessageLines event
     | .create => buildRefMessageLines event event.ref
     | .delete => buildRefMessageLines event event.ref
     | .workflow_run => buildRefMessageLines event event.title)

/-! ## Storage model (`src/database.ts`, `src/repository/...`) -/

/-- A `github_trusted_repos` row.  The `id` and timestamp columns are never
read by the pipeline and are omitted. -/
structure TrustedRepo where
  repo : String
  enabled : Bool
deriving DecidableEq, Repr

/-- A `github_subscriptions` row (`id` and timestamps omitted: never read by
the pipeline). -/
structure Subscription where
  platform : String
  channelId : String
  guildId : String
  userId : String
  repo : String
  events : List EventType
  enabled : Bool
deriving DecidableEq, Repr

/-- A `github_deliveries` row.  `receivedAt` is only read by the retention
cleanup, which no claim touches, and is omitted. -/
structure Delivery where
  deliveryId : String
  repo : String
  event : String
deriving DecidableEq, Repr

/-- The three tables of the database. -/
structure Db where
  trusted : List TrustedRepo
  subscriptions : List Subscription
  deliveries : List Delivery
deriving DecidableEq, Repr

/-- Model of `isDelivered` (`src/repository/delivery.ts`): membership of the delivery
identifier in the ledger. -/
def isDelivered (db : Db) (deliveryId : String) : Bool :=
  0 < (db.deliveries.filter (fun d => d.deliveryId == deliveryId)).length

/-- Model of `recordDelivery` (`src/repository/delivery.ts`): unconditionally insert a
ledger row. -/
def recordDelivery (db : Db) (deliveryId repo event : String) : Db :=
  { db with deliveries := db.deliveries ++
      [{ deliveryId := deliveryId, repo := repo, event := event }] }

/-- Model of `isTrusted` (`src/repository/trust.ts`): a row with the exact repository
string and `enabled: true` exists. -/
def isTrusted (db : Db) (repo : String) : Bool :=
  0 < (db.trusted.filter (fun t => t.repo == repo && t.enabled == true)).length

/-! ## Pusher (`src/pusher.ts`, `src/repository/subscription.ts`) -/

/-- A delivery address (`PushTarget` in `src/repository/subscription.ts`). -/
structure PushTarget where
  platform : String
  channelId : String
  guildId : Option String := none
  userId : Option String := none
deriving DecidableEq, Repr

/-- One send outcome (`PushResult` in `src/pusher.ts`). -/
structure PushResult where
  target : PushTarget
  success : Bool
  error : Option String := none
deriving DecidableEq, Repr

/-- Model of `queryTargets` (`src/repository/subscription.ts`): enabled subscriptions
of the exact repository, filtered by subscribed event kind, projected to
addresses (`'' || undefined` drops empty optional columns). -/
def queryTargets (db : Db) (repo : String) (eventType : EventType) :
    List PushTarget :=
  ((db.subscriptions.filter (fun s => s.repo == repo && s.enabled == true)).filter
      (fun s => s.events.contains eventType)).map
    (fun s => { platform := s.platform, channelId := s.channelId,
                guildId := if strTruthy s.guildId then some s.guildId else none,
                userId := if strTruthy s.userId then some s.userId else none })

/-- Model of `sendMessage` (`src/pusher.ts`): resolve the bot for the target platform
(`bots` is the list of registered platforms) and send; a missing bot throws,
and the catch block turns any thrown error into a failure result.  `send`
abstracts the transport: `none` is success, `some e` is a send that threw
error `e`. -/
def sendMessage (bots : List String) (send : PushTarget → Option String)
    (target : PushTarget) (message : String) : PushResult :=
  if bots.contains target.platform then
    match send target with
    | none => { target := target, success := true }
    | some e => { target := target, success := false, error := some e }
  else
    { target := target, success := false,
      error := some ("未找到平台 " ++ target.platform ++ " 的 bot") }

/-- Model of `pushWithConcurrency` (`src/pusher.ts`): spawn
`Math.min(concurrency, queue.length)` workers that drain a shared queue,
collecting one result per dequeued target.  With the send modelled as a pure
function, worker scheduling only permutes the result list; it is normalized
to queue order.  Note that when `min concurrency targets.length = 0` (a
non-positive concurrency budget) no worker is spawned and the queue is never
drained, so the result list is empty even for a non-empty target list. -/
def pushWithConcurrency (bots : List String) (send : PushTarget → Option String)
    (targets : List PushTarget) (message : String) (concurrency : Nat) :
    List PushResult :=
  if targets.isEmpty then []
  else if Nat.min concurrency targets.length == 0 then []
  else targets.map (fun t => sendMessage bots send t message)

/-- Model of `pushMessage` (`src/pusher.ts`): resolve the targets, build the message
once, dispatch; an empty target list short-circuits before the dispatcher. -/
def pushMessage (bots : List String) (send : PushTarget → Option String)
    (db : Db) (event : ParsedEvent) (concurrency : Nat) : List PushResult :=
  let targets := queryTargets db event.repo event.type
  if targets.isEmpty then []
  else pushWithConcurrency bots send targets (buildMessage event) concurrency

/-- The aggregate returned by `pushEvent`. -/
structure PushOutcome where
  pushed : Nat
  failed : Nat
  results : List PushResult
deriving DecidableEq, Repr

/-- Model of `pushEvent` (`src/pusher.ts`): tally the dispatch results. -/
def pushEvent (bots : List String) (send : PushTarget → Option String)
    (db : Db) (event : ParsedEvent) (concurrency : Nat) : PushOutcome :=
  let results := pushMessage bots send db event concurrency
  { pushed := (results.filter (fun r => r.success)).length,
    failed := (results.filter (fun r => !r.success)).length,
    results := results }

/-! ## Webhook pipeline (`src/webhook.ts`)

The POST handler registered by `registerWebhook`, modelled stage by stage in
source order.  Alongside the HTTP outcome and the updated database it
returns a trace of the collaborator invocations it performed. -/

/-- Plugin configuration fields read by the handler (`src/config.ts`).
`path`, `debug` and the other fields do not affect the modelled behaviour. -/
structure Config where
  secret : String
  allowUntrusted : Bool
  concurrency : Nat
deriving DecidableEq, Repr

/-- The inbound request as the handler reads it: the three headers (a
missing header reads as `''` under `koaCtx.get`) and the raw body string. -/
structure Request where
  signature : String
  eventName : String
  deliveryId : String
  rawBody : String
deriving DecidableEq, Repr

/-- The JSON response body.  The 4xx bodies of the source carry only
`error`; the 200 bodies carry `status` and optionally `reason`/`pushed`. -/
structure Body where
  status : Option String := none
  reason : Option String := none
  pushed : Option Nat := none
  error : Option String := none
deriving DecidableEq, Repr

/-- Collaborator invocations of one pipeline run. -/
inductive Step where
  | dedupChecked
  | trustChecked
  | normalized
  | recorded
  | targetsResolved
  | dispatched
deriving DecidableEq, Repr

/-- Outcome of one pipeline run. -/
structure RunResult where
  status : Nat
  body : Body
  db : Db
  trace : List Step
deriving DecidableEq, Repr

/-- The external collaborators of the pipeline: the JavaScript `JSON.parse`
builtin, the node `crypto` HMAC, the registered bot platforms, and the send
transport. -/
structure Env where
  parseJson : String → Option Json
  hmacHex : String → String → String
  bots : List String
  send : PushTarget → Option String

/-- Prefix one invocation onto a later stage's trace. -/
def prependTrace (s : Step) (r : RunResult) : RunResult :=
  { r with trace := s :: r.trace }

/-- The trace emitted by `pushEvent`: `queryTargets` is always consulted,
the dispatcher only when at least one target resolved. -/
def pushTraceSteps (db : Db) (event : ParsedEvent) : List Step :=
  if (queryTargets db event.repo event.type).isEmpty then [Step.targetsResolved]
  else [Step.targetsResolved, Step.dispatched]

/-- Final stage: `pushEvent` then the 200 `ok` response with the success
count. -/
def stagePush (env : Env) (cfg : Config) (db : Db) (event : ParsedEvent) :
    RunResult :=
  let result := pushEvent env.bots env.send db event cfg.concurrency
  { status := 200, body := { status := some "ok", pushed := some result.pushed },
    db := db, trace := pushTraceSteps db event }

/-- Delivery-recording stage: guarded by the presence of the delivery
identifier, strictly before the fan-out. -/
def stageRecord (env : Env) (cfg : Config) (db : Db) (req : Request)
    (repo : String) (event : ParsedEvent) : RunResult :=
  if strTruthy req.deliveryId then
    prependTrace .recorded
      (stagePush env cfg (recordDelivery db req.deliveryId repo req.eventName) event)
  else
    stagePush env cfg db event

/-- Normalization stage: an unsupported event name or sub-action yields the
200 `ignored: unsupported` response. -/
def stageNormalize (env : Env) (cfg : Config) (db : Db) (req : Request)
    (payload : Json) (repo : String) : RunResult :=
  match parseEvent req.eventName payload with
  | none =>
    { status := 200, body := { status := some "ignored", reason := some "unsupported" },
      db := db, trace := [Step.normalized] }
  | some event => prependTrace .normalized (stageRecord env cfg db req repo event)

/-- Trust stage: consulted only when the `allowUntrusted` override is off. -/
def stageTrust (env : Env) (cfg : Config) (db : Db) (req : Request)
    (payload : Json) (repo : String) : RunResult :=
  if !cfg.allowUntrusted then
    if !isTrusted db repo then
      { status := 200, body := { status := some "ignored", reason := some "untrusted" },
        db := db, trace := [Step.trustChecked] }
    else prependTrace .trustChecked (stageNormalize env cfg db req payload repo)
  else stageNormalize env cfg db req payload repo

/-- Dedup stage: consulted only when a delivery identifier is present. -/
def stageDedup (env : Env) (cfg : Config) (db : Db) (req : Request)
    (payload : Json) (repo : String) : RunResult :=
  if strTruthy req.deliveryId then
    if isDelivered db req.deliveryId then
      { status := 200, body := { status := some "duplicate" },
        db := db, trace := [Step.dedupChecked] }
    else prependTrace .dedupChecked (stageTrust env cfg db req payload repo)
  else stageTrust env cfg db req payload repo

/-- Repository-identity stage: `payload.repository?.full_name` must be
truthy. -/
def stageRepo (env : Env) (cfg : Config) (db : Db) (req : Request)
    (payload : Json) : RunResult :=
  let repoJ := (payload.get "repository").get "full_name"
  if !repoJ.truthy then
    { status := 400, body := { error := some "Missing repository information" },
      db := db, trace := [] }
  else stageDedup env cfg db req payload repoJ.asStr

/-- Body-parsing stage: `JSON.parse` failure yields 400. -/
def stageParse (env : Env) (cfg : Config) (db : Db) (req : Request) :
    RunResult :=
  match env.parseJson req.rawBody with
  | none =>
    { status := 400, body := { error := some "Invalid JSON payload" },
      db := db, trace := [] }
  | some payload => stageRepo env cfg db req payload

/-- The POST handler of `registerWebhook`: the signature gate (active only
when a secret is configured) followed by the remaining stages. -/
def handleWebhook (env : Env) (cfg : Config) (db : Db) (req : Request) :
    RunResult :=
  if strTruthy cfg.secret then
    if !strTruthy req.signature then
      { status := 401, body := { error := some "Missing signature" },
        db := db, trace := [] }
    else if !verifySignature env.hmacHex req.rawBody req.signature cfg.secret then
      { status := 401, body := { error := some "Invalid signature" },
        db := db, trace := [] }
    else stageParse env cfg db req
  else stageParse env cfg db req

/-! ## Concrete fixtures

Concrete payloads, configuration, database contents and environment used by
the witness theorems. -/

/-- A concrete push payload with `n` commits. -/
def samplePushPayload (n : Nat) : Json :=
  .obj [("ref", .str "refs/heads/main"),
        ("commits", .arr ((List.range n).map (fun i =>
          .obj [("id", .str ("abcdef012345" ++ toString i)),
                ("message", .str ("commit " ++ toString i ++ "\nbody")),
                ("author", .obj [("name", .str "alice")]),
                ("url", .str "http://c")]))),
        ("repository", .obj [("full_name", .str "o/r"), ("html_url", .str "http://r")]),
        ("sender", .obj [("login", .str "bob")]),
        ("compare", .str "http://cmp")]

/-- A concrete branch-creation push payload (no commits, `created` set). -/
def sampleBranchPayload (created : Bool) : Json :=
  .obj [("ref", .str "refs/heads/feat"),
        ("created", .bool created),
        ("deleted", .bool (!created)),
        ("repository", .obj [("full_name", .str "o/r"), ("html_url", .str "http://r")]),
        ("sender", .obj [("login", .str "bob")])]

/-- A concrete pull-request payload. -/
def samplePrPayload (action : String) (merged : Bool) : Json :=
  .obj [("action", .str action),
        ("pull_request", .obj [("merged", .bool merged), ("title", .str "t"),
                               ("number", .num 7), ("html_url", .str "http://pr")]),
        ("repository", .obj [("full_name", .str "o/r")]),
        ("sender", .obj [("login", .str "bob")])]

/-- Concrete collaborators: every raw body parses to the two-commit push
payload, one registered bot platform `"p"`, every send succeeds. -/
def sampleEnv : Env :=
  { parseJson := fun _ => some (samplePushPayload 2),
    hmacHex := fun _ _ => "",
    bots := ["p"],
    send := fun _ => none }

/-- Concrete configuration: no secret, trust filter active, concurrency 5. -/
def sampleCfg : Config :=
  { secret := "", allowUntrusted := false, concurrency := 5 }

/-- A concrete subscription of `o/r` to push events. -/
def sampleSub : Subscription :=
  { platform := "p", channelId := "c", guildId := "", userId := "",
    repo := "o/r", events := [.push], enabled := true }

/-- Concrete database: `o/r` trusted and subscribed, empty ledger. -/
def sampleDb : Db :=
  { trusted := [{ repo := "o/r", enabled := true }],
    subscriptions := [sampleSub],
    deliveries := [] }

/-- Concrete database whose ledger already contains delivery `d1`. -/
def sampleDbDup : Db :=
  { sampleDb with deliveries := [{ deliveryId := "d1", repo := "o/r", event := "push" }] }

/-- A concrete push request carrying delivery identifier `d1`. -/
def sampleReq : Request :=
  { signature := "", eventName := "push", deliveryId := "d1", rawBody := "b" }

/-- The same request without a delivery identifier header. -/
def sampleReqNoId : Request :=
  { sampleReq with deliveryId := "" }

/-! ## Theorems -/

/-- C1: for every payload string and secret (and any HMAC digest function),
`verifySignature(payload, createSignature(payload, secret), secret)` returns
`true`; and `verifySignature` returns `false` whenever the presented
signature is the empty string or does not start with `"sha256="`. -/
theorem C1_signature_roundtrip_and_prefix_rejection :
    (∀ (hmacHex : String → String → String) (payload secret : String),
        verifySignature hmacHex payload
          (createSignature hmacHex payload secret) secret = true)
    ∧ (∀ (hmacHex : String → String → String) (payload secret : String),
        verifySignature hmacHex payload "" secret = false)
    ∧ (∀ (hmacHex : String → String → String) (payload signature secret : String),
        List.isPrefixOf "sha256=".data signature.data = false →
        verifySignature hmacHex payload signature secret = false) := by
  refine ⟨?_, ?_, ?_⟩
  · intro h p s
    have hd : (createSignature h p s).data = "sha256=".data ++ (h s p).data :=
      String.data_append "sha256=" (h s p)
    have hpre : List.isPrefixOf "sha256=".data (createSignature h p s).data = true := by
      rw [hd, List.isPrefixOf_iff_prefix]
      exact List.prefix_append _ _
    have hne : (createSignature h p s).data.isEmpty = false := by
      rw [hd]
      rfl
    simp [verifySignature, hpre, hne]
  · intro h p s
    rfl
  · intro h p sig s hpre
    simp [verifySignature, hpre]

/-- Witness for C1: the round trip succeeds, and the empty and
wrong-prefix signatures are rejected, at concrete inputs. -/
theorem C1_witness :
    verifySignature (fun _ p => p) "x" (createSignature (fun _ p => p) "x" "k") "k" = true
    ∧ verifySignature (fun _ p => p) "x" "" "k" = false
    ∧ (List.isPrefixOf "sha256=".data "zzz".data = false
        ∧ verifySignature (fun _ p => p) "x" "zzz" "k" = false) :=
  ⟨C1_signature_roundtrip_and_prefix_rejection.1 _ "x" "k",
   C1_signature_roundtrip_and_prefix_rejection.2.1 _ "x" "k",
   by decide,
   C1_signature_roundtrip_and_prefix_rejection.2.2 _ "x" "zzz" "k" (by decide)⟩

/-! ### Shared pipeline lemmas -/

/-- The signature gate and structural parsing stages pass through to the
dedup stage whenever no secret is configured or the signature verifies, the
body parses, and the payload carries a truthy repository name. -/
theorem run_eq_stageDedup (env : Env) (cfg : Config) (db : Db) (req : Request)
    (payload : Json) (repo : String)
    (hsig : strTruthy cfg.secret = false ∨
      (strTruthy req.signature = true ∧
        verifySignature env.hmacHex req.rawBody req.signature cfg.secret = true))
    (hparse : env.parseJson req.rawBody = some payload)
    (hrepo : (payload.get "repository").get "full_name" = Json.str repo)
    (hr : strTruthy repo = true) :
    handleWebhook env cfg db req = stageDedup env cfg db req payload repo := by
  unfold handleWebhook stageParse stageRepo
  rcases hsig with h | ⟨h1, h2⟩
  · simp [h, hparse, hrepo, Json.truthy, hr, Json.asStr]
  · by_cases hs : strTruthy cfg.secret <;>
      simp [hs, h1, h2, hparse, hrepo, Json.truthy, hr, Json.asStr]

/-- A present, already-recorded delivery identifier makes the dedup stage
terminal with the `duplicate` outcome, only the ledger consulted. -/
theorem stageDedup_duplicate (env : Env) (cfg : Config) (db : Db) (req : Request)
    (payload : Json) (repo : String)
    (hdid : strTruthy req.deliveryId = true)
    (hdup : isDelivered db req.deliveryId = true) :
    stageDedup env cfg db req payload repo =
      { status := 200, body := { status := some "duplicate" }, db := db,
        trace := [Step.dedupChecked] } := by
  unfold stageDedup
  simp [hdid, hdup]

/-- C2: a request whose delivery identifier is already in the ledger
terminates with HTTP 200 and status `duplicate`, leaving the database
unchanged, before the trust filter, the normalizer, the delivery-record
write, and the dispatcher are invoked — whatever the trust table says. -/
theorem C2_duplicate_terminates_before_trust_normalize_record_dispatch
    (env : Env) (cfg : Config) (db : Db) (req : Request) (payload : Json) (repo : String)
    (hsig : strTruthy cfg.secret = false ∨
      (strTruthy req.signature = true ∧
        verifySignature env.hmacHex req.rawBody req.signature cfg.secret = true))
    (hparse : env.parseJson req.rawBody = some payload)
    (hrepo : (payload.get "repository").get "full_name" = Json.str repo)
    (hr : strTruthy repo = true)
    (hdid : strTruthy req.deliveryId = true)
    (hdup : isDelivered db req.deliveryId = true) :
    (handleWebhook env cfg db req).status = 200
    ∧ (handleWebhook env cfg db req).body.status = some "duplicate"
    ∧ (handleWebhook env cfg db req).db = db
    ∧ Step.trustChecked ∉ (handleWebhook env cfg db req).trace
    ∧ Step.normalized ∉ (handleWebhook env cfg db req).trace
    ∧ Step.recorded ∉ (handleWebhook env cfg db req).trace
    ∧ Step.targetsResolved ∉ (handleWebhook env cfg db req).trace
    ∧ Step.dispatched ∉ (handleWebhook env cfg db req).trace := by
  rw [run_eq_stageDedup env cfg db req payload repo hsig hparse hrepo hr,
    stageDedup_duplicate env cfg db req payload repo hdid hdup]
  refine ⟨rfl, rfl, rfl, ?_, ?_, ?_, ?_, ?_⟩ <;> simp

/-- Witness for C2 at a concrete duplicate request. -/
theorem C2_witness :
    (handleWebhook sampleEnv sampleCfg sampleDbDup sampleReq).status = 200
    ∧ (handleWebhook sampleEnv sampleCfg sampleDbDup sampleReq).body.status = some "duplicate"
    ∧ (handleWebhook sampleEnv sampleCfg sampleDbDup sampleReq).db = sampleDbDup
    ∧ Step.trustChecked ∉ (handleWebhook sampleEnv sampleCfg sampleDbDup sampleReq).trace
    ∧ Step.normalized ∉ (handleWebhook sampleEnv sampleCfg sampleDbDup sampleReq).trace
    ∧ Step.recorded ∉ (handleWebhook sampleEnv sampleCfg sampleDbDup sampleReq).trace
    ∧ Step.targetsResolved ∉ (handleWebhook sampleEnv sampleCfg sampleDbDup sampleReq).trace
    ∧ Step.dispatched ∉ (handleWebhook sampleEnv sampleCfg sampleDbDup sampleReq).trace :=
  C2_duplicate_terminates_before_trust_normalize_record_dispatch
    sampleEnv sampleCfg sampleDbDup sampleReq (samplePushPayload 2) "o/r"
    (Or.inl rfl) rfl rfl (by decide) (by decide) (by decide)

/-- A filtered table is non-empty iff some row satisfies the filter. -/
theorem length_filter_pos {α : Type} (p : α → Bool) (l : List α) :
    (0 < (l.filter p).length) ↔ ∃ x ∈ l, p x = true := by
  induction l with
  | nil => simp
  | cons a t ih => by_cases h : p a <;> simp [List.filter_cons, h, ih]

/-- A fresh (or absent) delivery identifier passes the dedup stage through
to the trust stage. -/
theorem stageDedup_pass (env : Env) (cfg : Config) (db : Db) (req : Request)
    (payload : Json) (repo : String)
    (hnew : strTruthy req.deliveryId = true → isDelivered db req.deliveryId = false) :
    stageDedup env cfg db req payload repo =
      if strTruthy req.deliveryId then
        prependTrace .dedupChecked (stageTrust env cfg db req payload repo)
      else stageTrust env cfg db req payload repo := by
  unfold stageDedup
  by_cases h : strTruthy req.deliveryId <;> simp [h, hnew]

/-- With the override off and the repository untrusted, the trust stage is
terminal with the `ignored: untrusted` outcome. -/
theorem stageTrust_untrusted (env : Env) (cfg : Config) (db : Db) (req : Request)
    (payload : Json) (repo : String)
    (hov : cfg.allowUntrusted = false) (htr : isTrusted db repo = false) :
    stageTrust env cfg db req payload repo =
      { status := 200, body := { status := some "ignored", reason := some "untrusted" },
        db := db, trace := [Step.trustChecked] } := by
  unfold stageTrust
  simp [hov, htr]

/-- The fan-out trace never contains a trust-filter consultation. -/
theorem trustChecked_not_mem_pushTraceSteps (db : Db) (event : ParsedEvent) :
    Step.trustChecked ∉ pushTraceSteps db event := by
  unfold pushTraceSteps
  split <;> simp

/-- The record stage onward never consults the trust filter. -/
theorem trustChecked_not_mem_stageRecord (env : Env) (cfg : Config) (db : Db)
    (req : Request) (repo : String) (event : ParsedEvent) :
    Step.trustChecked ∉ (stageRecord env cfg db req repo event).trace := by
  unfold stageRecord stagePush
  split <;> simp [prependTrace, trustChecked_not_mem_pushTraceSteps]

/-- The normalization stage onward never consults the trust filter. -/
theorem trustChecked_not_mem_stageNormalize (env : Env) (cfg : Config) (db : Db)
    (req : Request) (payload : Json) (repo : String) :
    Step.trustChecked ∉ (stageNormalize env cfg db req payload repo).trace := by
  unfold stageNormalize
  split
  · simp
  · simp [prependTrace, trustChecked_not_mem_stageRecord]

/-- With the override on, the dedup stage onward never consults the trust
filter. -/
theorem trustChecked_not_mem_stageDedup (env : Env) (cfg : Config) (db : Db)
    (req : Request) (payload : Json) (repo : String)
    (hov : cfg.allowUntrusted = true) :
    Step.trustChecked ∉ (stageDedup env cfg db req payload repo).trace := by
  have hTrust : Step.trustChecked ∉ (stageTrust env cfg db req payload repo).trace := by
    unfold stageTrust
    simp [hov, trustChecked_not_mem_stageNormalize]
  unfold stageDedup
  by_cases h1 : strTruthy req.deliveryId
  · by_cases h2 : isDelivered db req.deliveryId <;>
      simp [h1, h2, prependTrace, hTrust]
  · simp [h1, hTrust]

/-- With the override on, the repository stage onward never consults the
trust filter. -/
theorem trustChecked_not_mem_stageRepo (env : Env) (cfg : Config) (db : Db)
    (req : Request) (payload : Json)
    (hov : cfg.allowUntrusted = true) :
    Step.trustChecked ∉ (stageRepo env cfg db req payload).trace := by
  unfold stageRepo
  by_cases h : ((payload.get "repository").get "full_name").truthy
  · rw [if_neg (by simp [h])]
    exact trustChecked_not_mem_stageDedup env cfg db req payload _ hov
  · rw [if_pos (by simp [h])]
    simp

/-- With the override on, the parse stage onward never consults the trust
filter. -/
theorem trustChecked_not_mem_stageParse (env : Env) (cfg : Config) (db : Db)
    (req : Request) (hov : cfg.allowUntrusted = true) :
    Step.trustChecked ∉ (stageParse env cfg db req).trace := by
  unfold stageParse
  cases hpj : env.parseJson req.rawBody with
  | none => simp
  | some payload => exact trustChecked_not_mem_stageRepo env cfg db req payload hov

/-- C3: `isTrusted` holds exactly when an enabled trust row exists for the
exact repository string; an untrusted repository (override off) terminates
with `ignored: untrusted` and the target resolver is never invoked; with the
override on, the trust filter is never consulted at all. -/
theorem C3_trust_filter_admission :
    (∀ (db : Db) (repo : String),
        isTrusted db repo = true ↔
          ∃ t ∈ db.trusted, t.repo = repo ∧ t.enabled = true)
    ∧ (∀ (env : Env) (cfg : Config) (db : Db) (req : Request) (payload : Json)
         (repo : String),
        (strTruthy cfg.secret = false ∨
          (strTruthy req.signature = true ∧
            verifySignature env.hmacHex req.rawBody req.signature cfg.secret = true)) →
        env.parseJson req.rawBody = some payload →
        (payload.get "repository").get "full_name" = Json.str repo →
        strTruthy repo = true →
        (strTruthy req.deliveryId = true → isDelivered db req.deliveryId = false) →
        cfg.allowUntrusted = false →
        isTrusted db repo = false →
        (handleWebhook env cfg db req).status = 200
        ∧ (handleWebhook env cfg db req).body.status = some "ignored"
        ∧ (handleWebhook env cfg db req).body.reason = some "untrusted"
        ∧ Step.targetsResolved ∉ (handleWebhook env cfg db req).trace
        ∧ Step.dispatched ∉ (handleWebhook env cfg db req).trace)
    ∧ (∀ (env : Env) (cfg : Config) (db : Db) (req : Request),
        cfg.allowUntrusted = true →
        Step.trustChecked ∉ (handleWebhook env cfg db req).trace) := by
  refine ⟨?_, ?_, ?_⟩
  · intro db repo
    rw [isTrusted]
    rw [decide_eq_true_eq]
    rw [length_filter_pos]
    constructor
    · rintro ⟨t, hmem, hp⟩
      rw [Bool.and_eq_true, beq_iff_eq, beq_iff_eq] at hp
      exact ⟨t, hmem, hp.1, hp.2⟩
    · rintro ⟨t, hmem, h1, h2⟩
      exact ⟨t, hmem, by rw [Bool.and_eq_true, beq_iff_eq, beq_iff_eq]; exact ⟨h1, h2⟩⟩
  · intro env cfg db req payload repo hsig hparse hrepo hr hnew hov htr
    rw [run_eq_stageDedup env cfg db req payload repo hsig hparse hrepo hr,
      stageDedup_pass env cfg db req payload repo hnew,
      stageTrust_untrusted env cfg db req payload repo hov htr]
    by_cases h : strTruthy req.deliveryId <;>
      simp [h, prependTrace]
  · intro env cfg db req hov
    have hp : Step.trustChecked ∉ (stageParse env cfg db req).trace :=
      trustChecked_not_mem_stageParse env cfg db req hov
    unfold handleWebhook
    by_cases h1 : strTruthy cfg.secret
    · by_cases h2 : strTruthy req.signature
      · by_cases h3 : verifySignature env.hmacHex req.rawBody req.signature cfg.secret
        · simp [h1, h2, h3, hp]
        · simp [h1, h2, h3]
      · simp [h1, h2]
    · simp [h1, hp]

/-- Witness for C3: the characterization at a one-row table, the concrete
untrusted run, and the concrete override run. -/
theorem C3_witness :
    (isTrusted sampleDb "o/r" = true ↔
      ∃ t ∈ sampleDb.trusted, t.repo = "o/r" ∧ t.enabled = true)
    ∧ ((handleWebhook sampleEnv sampleCfg { sampleDb with trusted := [] } sampleReq).status = 200
       ∧ (handleWebhook sampleEnv sampleCfg { sampleDb with trusted := [] } sampleReq).body.status = some "ignored"
       ∧ (handleWebhook sampleEnv sampleCfg { sampleDb with trusted := [] } sampleReq).body.reason = some "untrusted"
       ∧ Step.targetsResolved ∉ (handleWebhook sampleEnv sampleCfg { sampleDb with trusted := [] } sampleReq).trace
       ∧ Step.dispatched ∉ (handleWebhook sampleEnv sampleCfg { sampleDb with trusted := [] } sampleReq).trace)
    ∧ Step.trustChecked ∉
        (handleWebhook sampleEnv { sampleCfg with allowUntrusted := true } sampleDb sampleReq).trace :=
  ⟨C3_trust_filter_admission.1 sampleDb "o/r",
   C3_trust_filter_admission.2.1 sampleEnv sampleCfg { sampleDb with trusted := [] }
     sampleReq (samplePushPayload 2) "o/r" (Or.inl rfl) rfl rfl (by decide)
     (fun _ => by decide) rfl (by decide),
   C3_trust_filter_admission.2.2 sampleEnv { sampleCfg with allowUntrusted := true }
     sampleDb sampleReq rfl⟩

/-- A trusted repository (or the override) passes the trust stage through to
normalization. -/
theorem stageTrust_pass (env : Env) (cfg : Config) (db : Db) (req : Request)
    (payload : Json) (repo : String)
    (htr : cfg.allowUntrusted = false → isTrusted db repo = true) :
    stageTrust env cfg db req payload repo =
      if cfg.allowUntrusted then stageNormalize env cfg db req payload repo
      else prependTrace .trustChecked (stageNormalize env cfg db req payload repo) := by
  unfold stageTrust
  by_cases h : cfg.allowUntrusted
  · simp [h]
  · simp [h, htr (Bool.eq_false_iff.mpr h)]

/-- A normalized event passes the normalization stage through to
recording. -/
theorem stageNormalize_some (env : Env) (cfg : Config) (db : Db) (req : Request)
    (payload : Json) (repo : String) (event : ParsedEvent)
    (hev : parseEvent req.eventName payload = some event) :
    stageNormalize env cfg db req payload repo =
      prependTrace .normalized (stageRecord env cfg db req repo event) := by
  unfold stageNormalize
  rw [hev]

/-- With a delivery identifier present, the record stage writes the ledger
row and hands the updated database to the fan-out. -/
theorem stageRecord_withId (env : Env) (cfg : Config) (db : Db) (req : Request)
    (repo : String) (event : ParsedEvent)
    (hdid : strTruthy req.deliveryId = true) :
    stageRecord env cfg db req repo event =
      prependTrace .recorded
        (stagePush env cfg (recordDelivery db req.deliveryId repo req.eventName) event) := by
  unfold stageRecord
  rw [if_pos hdid]

/-- A freshly recorded delivery identifier is found by the ledger lookup. -/
theorem isDelivered_recordDelivery (db : Db) (id repo ev : String) :
    isDelivered (recordDelivery db id repo ev) id = true := by
  unfold isDelivered recordDelivery
  rw [decide_eq_true_eq]
  simp [List.filter_append]

/-- C4: a fully admitted request writes the delivery record strictly before
the target resolver and dispatcher run (the trace ends with the fan-out
steps, `recorded` ahead of them), writes it even when zero targets resolve
(the database conclusion does not depend on the subscription table), and a
repeat of the same identifier afterwards is classified `duplicate`. -/
theorem C4_delivery_recorded_before_dispatch
    (env : Env) (cfg : Config) (db : Db) (req : Request) (payload : Json)
    (repo : String) (event : ParsedEvent)
    (hsig : strTruthy cfg.secret = false ∨
      (strTruthy req.signature = true ∧
        verifySignature env.hmacHex req.rawBody req.signature cfg.secret = true))
    (hparse : env.parseJson req.rawBody = some payload)
    (hrepo : (payload.get "repository").get "full_name" = Json.str repo)
    (hr : strTruthy repo = true)
    (hdid : strTruthy req.deliveryId = true)
    (hnew : isDelivered db req.deliveryId = false)
    (htr : cfg.allowUntrusted = false → isTrusted db repo = true)
    (hev : parseEvent req.eventName payload = some event) :
    (handleWebhook env cfg db req).db =
      recordDelivery db req.deliveryId repo req.eventName
    ∧ (handleWebhook env cfg db req).trace =
        [Step.dedupChecked]
          ++ (if cfg.allowUntrusted then [] else [Step.trustChecked])
          ++ [Step.normalized, Step.recorded]
          ++ pushTraceSteps (recordDelivery db req.deliveryId repo req.eventName) event
    ∧ isDelivered (handleWebhook env cfg db req).db req.deliveryId = true
    ∧ (handleWebhook env cfg (handleWebhook env cfg db req).db req).status = 200
    ∧ (handleWebhook env cfg (handleWebhook env cfg db req).db req).body.status =
        some "duplicate" := by
  have hrun : handleWebhook env cfg db req =
      prependTrace .dedupChecked
        (if cfg.allowUntrusted then
          prependTrace .normalized (prependTrace .recorded
            (stagePush env cfg (recordDelivery db req.deliveryId repo req.eventName) event))
         else
          prependTrace .trustChecked (prependTrace .normalized (prependTrace .recorded
            (stagePush env cfg (recordDelivery db req.deliveryId repo req.eventName) event)))) := by
    rw [run_eq_stageDedup env cfg db req payload repo hsig hparse hrepo hr,
      stageDedup_pass env cfg db req payload repo (fun _ => hnew),
      if_pos hdid,
      stageTrust_pass env cfg db req payload repo htr,
      stageNormalize_some env cfg db req payload repo event hev,
      stageRecord_withId env cfg db req repo event hdid]
  have hdb : (handleWebhook env cfg db req).db =
      recordDelivery db req.deliveryId repo req.eventName := by
    rw [hrun]
    by_cases h : cfg.allowUntrusted <;> simp [h, prependTrace, stagePush]
  refine ⟨hdb, ?_, ?_, ?_, ?_⟩
  · rw [hrun]
    by_cases h : cfg.allowUntrusted <;> simp [h, prependTrace, stagePush]
  · rw [hdb]
    exact isDelivered_recordDelivery db req.deliveryId repo req.eventName
  · rw [hdb,
      run_eq_stageDedup env cfg (recordDelivery db req.deliveryId repo req.eventName)
        req payload repo hsig hparse hrepo hr,
      stageDedup_duplicate env cfg (recordDelivery db req.deliveryId repo req.eventName)
        req payload repo hdid (isDelivered_recordDelivery db req.deliveryId repo req.eventName)]
  · rw [hdb,
      run_eq_stageDedup env cfg (recordDelivery db req.deliveryId repo req.eventName)
        req payload repo hsig hparse hrepo hr,
      stageDedup_duplicate env cfg (recordDelivery db req.deliveryId repo req.eventName)
        req payload repo hdid (isDelivered_recordDelivery db req.deliveryId repo req.eventName)]

/-- Witness for C4: the concrete admitted push request records `d1`, with
the fan-out steps after `recorded`, and its replay is a duplicate. -/
theorem C4_witness :
    (handleWebhook sampleEnv sampleCfg sampleDb sampleReq).db =
      recordDelivery sampleDb "d1" "o/r" "push"
    ∧ (handleWebhook sampleEnv sampleCfg sampleDb sampleReq).trace =
        [Step.dedupChecked]
          ++ (if sampleCfg.allowUntrusted then [] else [Step.trustChecked])
          ++ [Step.normalized, Step.recorded]
          ++ pushTraceSteps (recordDelivery sampleDb "d1" "o/r" "push")
              (parsePushEvent (samplePushPayload 2)).get!
    ∧ isDelivered (handleWebhook sampleEnv sampleCfg sampleDb sampleReq).db "d1" = true
    ∧ (handleWebhook sampleEnv sampleCfg
        (handleWebhook sampleEnv sampleCfg sampleDb sampleReq).db sampleReq).status = 200
    ∧ (handleWebhook sampleEnv sampleCfg
        (handleWebhook sampleEnv sampleCfg sampleDb sampleReq).db sampleReq).body.status =
        some "duplicate" :=
  C4_delivery_recorded_before_dispatch sampleEnv sampleCfg sampleDb sampleReq
    (samplePushPayload 2) "o/r" (parsePushEvent (samplePushPayload 2)).get!
    (Or.inl rfl) rfl rfl (by decide) (by decide) (by decide) (fun _ => by decide) rfl

/-- C5 counterexample: with a concurrency budget of `0`,
`Math.min(concurrency, queue.length)` spawns zero workers, the queue is
never drained, and the result list is empty even though one target was
given — not one result per target as claimed. -/
theorem C5_counterexample :
    pushWithConcurrency ["p"] (fun _ => none)
        [{ platform := "p", channelId := "c" }] "m" 0 = []
    ∧ ([{ platform := "p", channelId := "c" }] : List PushTarget).length = 1 := by
  decide

/-- C5 (amended): for every positive concurrency limit, dispatch returns the
empty list on an empty target list and otherwise exactly one result per
target, in queue order; an unresolvable platform or a send failure is
captured as a `success := false` result carrying the error, and no failure
prevents the other targets from being attempted (every position of the
result list is the independent send outcome of the same position of the
target list). -/
theorem C5_dispatch_one_result_per_target
    (bots : List String) (send : PushTarget → Option String)
    (targets : List PushTarget) (message : String) (concurrency : Nat)
    (hc : 1 ≤ concurrency) :
    (targets = [] → pushWithConcurrency bots send targets message concurrency = [])
    ∧ (pushWithConcurrency bots send targets message concurrency).length = targets.length
    ∧ (∀ i : Nat, (pushWithConcurrency bots send targets message concurrency)[i]? =
        (targets[i]?).map (fun t => sendMessage bots send t message))
    ∧ (∀ t : PushTarget, bots.contains t.platform = false →
        sendMessage bots send t message =
          { target := t, success := false,
            error := some ("未找到平台 " ++ t.platform ++ " 的 bot") })
    ∧ (∀ (t : PushTarget) (e : String), bots.contains t.platform = true →
        send t = some e →
        sendMessage bots send t message =
          { target := t, success := false, error := some e }) := by
  have hsendU : ∀ t : PushTarget, bots.contains t.platform = false →
      sendMessage bots send t message =
        { target := t, success := false,
          error := some ("未找到平台 " ++ t.platform ++ " 的 bot") } := by
    intro t h
    unfold sendMessage
    rw [h]
    rfl
  have hsendF : ∀ (t : PushTarget) (e : String), bots.contains t.platform = true →
      send t = some e →
      sendMessage bots send t message =
        { target := t, success := false, error := some e } := by
    intro t e h1 h2
    unfold sendMessage
    rw [h1, h2]
    rfl
  by_cases ht : targets = []
  · subst ht
    exact ⟨fun _ => rfl, rfl, fun i => rfl, hsendU, hsendF⟩
  · have hne0 : (Nat.min concurrency targets.length == 0) = false := by
      rw [beq_eq_false_iff_ne, Ne, Nat.min_eq_zero_iff]
      rintro (h0 | h0)
      · rw [h0] at hc
        exact absurd hc (by decide)
      · exact ht (List.length_eq_zero.mp h0)
    have hmap : pushWithConcurrency bots send targets message concurrency =
        targets.map (fun t => sendMessage bots send t message) := by
      unfold pushWithConcurrency
      rw [if_neg (by simp [ht]), hne0]
      simp
    refine ⟨fun h => absurd h ht, ?_, ?_, hsendU, hsendF⟩
    · rw [hmap, List.length_map]
    · intro i
      rw [hmap, List.getElem?_map]

/-- Witness for C5 (amended): four targets, the second and fourth failing
(one unresolvable platform, one thrown send error), still yield four
results in order. -/
theorem C5_witness :
    (([] : List PushTarget) = [] →
      pushWithConcurrency ["p"] (fun _ => none) [] "m" 2 = [])
    ∧ (pushWithConcurrency ["p"]
        (fun t => if t.channelId = "c4" then some "boom" else none)
        [{ platform := "p", channelId := "c1" }, { platform := "q", channelId := "c2" },
         { platform := "p", channelId := "c3" }, { platform := "p", channelId := "c4" }]
        "m" 2).length =
      ([{ platform := "p", channelId := "c1" }, { platform := "q", channelId := "c2" },
        { platform := "p", channelId := "c3" }, { platform := "p", channelId := "c4" }] :
          List PushTarget).length
    ∧ sendMessage ["p"] (fun _ => none) { platform := "q", channelId := "c2" } "m" =
        { target := { platform := "q", channelId := "c2" }, success := false,
          error := some ("未找到平台 " ++ "q" ++ " 的 bot") } :=
  ⟨(C5_dispatch_one_result_per_target ["p"] (fun _ => none) [] "m" 2 (by decide)).1,
   (C5_dispatch_one_result_per_target ["p"]
      (fun t => if t.channelId = "c4" then some "boom" else none)
      [{ platform := "p", channelId := "c1" }, { platform := "q", channelId := "c2" },
       { platform := "p", channelId := "c3" }, { platform := "p", channelId := "c4" }]
      "m" 2 (by decide)).2.1,
   (C5_dispatch_one_result_per_target ["p"] (fun _ => none)
      [] "m" 2 (by decide)).2.2.2.1 { platform := "q", channelId := "c2" } (by decide)⟩

/-- The push template renders a header, a summary carrying the true commit
count, the displayed commit lines, the overflow line exactly when the list
was truncated, and the trailing URL. -/
theorem buildPushMessageLines_eq (e : ParsedEvent) (dc : List CommitInfo) (n : Nat)
    (hc : e.commits = some dc) (ht : e.totalCommits = some n)
    (hlen : dc.length = min 3 n) :
    buildPushMessageLines e =
      [headerLine e,
       e.actor ++ " 推送了 " ++ toString n ++ " 个提交到 " ++ (e.ref.getD ""),
       ""]
      ++ dc.map (fun c => "• " ++ c.sha ++ " - " ++ c.message)
      ++ (if 3 < n then ["", "还有 " ++ toString (n - 3) ++ " 条提交..."] else [])
      ++ [e.url.getD ""] := by
  unfold buildPushMessageLines
  rw [hc, ht]
  simp only [Option.getD_some]
  by_cases hn : n = 0
  · subst hn
    have hdc : dc = [] := List.length_eq_zero.mp (by simp [hlen])
    subst hdc
    simp
  · have htot : (if n == 0 then dc.length else n) = n := by
      simp [hn]
    rw [htot]
    by_cases h3 : 3 < n
    · have h1 : dc.length = 3 := by
        rw [hlen]
        exact Nat.min_eq_left (by omega)
      rw [h1]
    · have h1 : dc.length = n := by
        rw [hlen]
        exact Nat.min_eq_right (by omega)
      rw [h1]
      simp [h3]

/-- C6: a push payload with `n` commits (entering the push branch)
normalizes to a push event whose commit list is the first `min n 3` payload
commits in order — hashes truncated to 7 characters, messages reduced to
their first line — with `totalCommits = n`, and the rendered push message
enumerates exactly those commits plus, when `n > 3`, a line reporting the
`n − 3` remaining ones. -/
theorem C6_push_commit_truncation_and_rendering
    (payload : Json) (cs : List Json)
    (hcs : payload.get "commits" = Json.arr cs)
    (hbranch : cs ≠ [] ∨
      ((payload.get "created").truthy = false ∧ (payload.get "deleted").truthy = false)) :
    ∃ e, parsePushEvent payload = some e
      ∧ e.type = .push
      ∧ e.commits = some ((cs.map parseCommit).take MAX_COMMITS)
      ∧ (e.commits.getD []).length = min cs.length 3
      ∧ e.totalCommits = some cs.length
      ∧ (∀ c id msg, c ∈ cs → c.get "id" = Json.str id →
          c.get "message" = Json.str msg →
          (parseCommit c).sha = id.take 7 ∧ (parseCommit c).message = firstLine msg)
      ∧ buildPushMessageLines e =
          [headerLine e,
           e.actor ++ " 推送了 " ++ toString cs.length ++ " 个提交到 " ++ (e.ref.getD ""),
           ""]
          ++ ((cs.map parseCommit).take MAX_COMMITS).map
              (fun c => "• " ++ c.sha ++ " - " ++ c.message)
          ++ (if 3 < cs.length then
                ["", "还有 " ++ toString (cs.length - 3) ++ " 条提交..."]
              else [])
          ++ [e.url.getD ""] := by
  have hcond : ((!(Json.arr cs).truthy || jsLengthEqZero (Json.arr cs))
      && ((payload.get "created").truthy || (payload.get "deleted").truthy)) = false := by
    rcases hbranch with h | ⟨h1, h2⟩
    · cases cs with
      | nil => exact absurd rfl h
      | cons a t => simp [Json.truthy, jsLengthEqZero]
    · simp [h1, h2]
  have hparse : parsePushEvent payload =
      some { type := .push, displayType := getDisplayType .push,
             repo := repoOf payload, actor := actorOf payload,
             ref := some (pushBranch payload),
             commits := some ((cs.map parseCommit).take MAX_COMMITS),
             totalCommits := some (cs.map parseCommit).length,
             url := (jsOr (payload.get "compare")
                      (.str ("https://github.com/" ++ repoOf payload))).asStrOpt } := by
    unfold parsePushEvent
    rw [hcs]
    rw [if_neg (by rw [hcond]; exact Bool.false_ne_true)]
    rfl
  refine ⟨_, hparse, rfl, rfl, ?_, ?_, ?_, ?_⟩
  · simp [MAX_COMMITS, Nat.min_comm]
  · simp
  · intro c id msg hmem hid hmsg
    constructor
    · simp [parseCommit, hid]
    · simp [parseCommit, hmsg]
  · refine buildPushMessageLines_eq _ ((cs.map parseCommit).take MAX_COMMITS)
      cs.length rfl (by simp) ?_
    simp [MAX_COMMITS]

/-- Witness for C6 at the concrete five-commit payload. -/
theorem C6_witness :
    ∃ e, parsePushEvent (samplePushPayload 5) = some e
      ∧ e.type = .push
      ∧ e.commits = some
          (((samplePushPayload 5).get "commits").asArr.map parseCommit |>.take MAX_COMMITS)
      ∧ (e.commits.getD []).length =
          min ((samplePushPayload 5).get "commits").asArr.length 3
      ∧ e.totalCommits = some ((samplePushPayload 5).get "commits").asArr.length
      ∧ (∀ c id msg, c ∈ ((samplePushPayload 5).get "commits").asArr →
          c.get "id" = Json.str id → c.get "message" = Json.str msg →
          (parseCommit c).sha = id.take 7 ∧ (parseCommit c).message = firstLine msg)
      ∧ buildPushMessageLines e =
          [headerLine e,
           e.actor ++ " 推送了 " ++
             toString ((samplePushPayload 5).get "commits").asArr.length ++
             " 个提交到 " ++ (e.ref.getD ""),
           ""]
          ++ ((((samplePushPayload 5).get "commits").asArr.map parseCommit).take MAX_COMMITS).map
              (fun c => "• " ++ c.sha ++ " - " ++ c.message)
          ++ (if 3 < ((samplePushPayload 5).get "commits").asArr.length then
                ["", "还有 " ++
                  toString (((samplePushPayload 5).get "commits").asArr.length - 3) ++
                  " 条提交..."]
              else [])
          ++ [e.url.getD ""] :=
  C6_push_commit_truncation_and_rendering (samplePushPayload 5)
    ((samplePushPayload 5).get "commits").asArr rfl
    (Or.inl (List.ne_nil_of_length_pos (by simp [samplePushPayload, Json.get, Json.asArr])))

/-- C7: a push payload whose commit list is absent or empty and whose
`created` (respectively `deleted`) flag is truthy parses to a ref-create
(respectively ref-delete) event carrying the branch name and no commit
list, never a push event; conversely every parse result is push with a set
commit list or create/delete without one — the two shapes are mutually
exclusive. -/
theorem C7_ref_events_exclusive_with_push :
    (∀ payload : Json,
        (payload.get "commits" = Json.null ∨ payload.get "commits" = Json.arr []) →
        (payload.get "created").truthy = true →
        ∃ e, parsePushEvent payload = some e ∧ e.type = .create
          ∧ e.ref = some (pushBranch payload) ∧ e.commits = none ∧ e.type ≠ .push)
    ∧ (∀ payload : Json,
        (payload.get "commits" = Json.null ∨ payload.get "commits" = Json.arr []) →
        (payload.get "created").truthy = false →
        (payload.get "deleted").truthy = true →
        ∃ e, parsePushEvent payload = some e ∧ e.type = .delete
          ∧ e.ref = some (pushBranch payload) ∧ e.commits = none ∧ e.type ≠ .push)
    ∧ (∀ (payload : Json) (e : ParsedEvent), parsePushEvent payload = some e →
        ((e.type = .push ↔ e.commits.isSome = true)
          ∧ (e.type = .push ∨ e.type = .create ∨ e.type = .delete))) := by
  refine ⟨?_, ?_, ?_⟩
  · intro payload hcm hcr
    have hcond : ((!(payload.get "commits").truthy || jsLengthEqZero (payload.get "commits"))
        && ((payload.get "created").truthy || (payload.get "deleted").truthy)) = true := by
      rcases hcm with h | h <;> rw [h, hcr] <;> rfl
    have hparse : parsePushEvent payload =
        some { type := .create, displayType := getDisplayType .create,
               repo := repoOf payload, actor := actorOf payload,
               action := some "创建分支",
               ref := some (pushBranch payload),
               url := ((payload.get "repository").get "html_url").asStrOpt } := by
      simp only [parsePushEvent]
      rw [hcond, hcr]
      rfl
    exact ⟨_, hparse, rfl, rfl, rfl, by simp⟩
  · intro payload hcm hcr hdel
    have hcond : ((!(payload.get "commits").truthy || jsLengthEqZero (payload.get "commits"))
        && ((payload.get "created").truthy || (payload.get "deleted").truthy)) = true := by
      rcases hcm with h | h <;> rw [h, hcr, hdel] <;> rfl
    have hparse : parsePushEvent payload =
        some { type := .delete, displayType := getDisplayType .delete,
               repo := repoOf payload, actor := actorOf payload,
               action := some "删除分支",
               ref := some (pushBranch payload),
               url := ((payload.get "repository").get "html_url").asStrOpt } := by
      simp only [parsePushEvent]
      rw [hcond, hcr]
      rfl
    exact ⟨_, hparse, rfl, rfl, rfl, by simp⟩
  · intro payload e hp
    simp only [parsePushEvent] at hp
    by_cases hcond : ((!(payload.get "commits").truthy || jsLengthEqZero (payload.get "commits"))
        && ((payload.get "created").truthy || (payload.get "deleted").truthy)) = true
    · rw [if_pos hcond] at hp
      injection hp with he
      subst he
      by_cases hcr : (payload.get "created").truthy = true <;> simp [hcr]
    · rw [if_neg hcond] at hp
      injection hp with he
      subst he
      simp

/-- Witness for C7: the concrete branch-creation payload, the concrete
branch-deletion payload, and the concrete two-commit push payload. -/
theorem C7_witness :
    (∃ e, parsePushEvent (sampleBranchPayload true) = some e ∧ e.type = .create
      ∧ e.ref = some (pushBranch (sampleBranchPayload true)) ∧ e.commits = none
      ∧ e.type ≠ .push)
    ∧ (∃ e, parsePushEvent (sampleBranchPayload false) = some e ∧ e.type = .delete
      ∧ e.ref = some (pushBranch (sampleBranchPayload false)) ∧ e.commits = none
      ∧ e.type ≠ .push)
    ∧ ((((parsePushEvent (samplePushPayload 2)).get!).type = .push ↔
          (((parsePushEvent (samplePushPayload 2)).get!).commits).isSome = true)
        ∧ (((parsePushEvent (samplePushPayload 2)).get!).type = .push
            ∨ ((parsePushEvent (samplePushPayload 2)).get!).type = .create
            ∨ ((parsePushEvent (samplePushPayload 2)).get!).type = .delete)) :=
  ⟨C7_ref_events_exclusive_with_push.1 (sampleBranchPayload true)
      (Or.inl rfl) (by decide),
   C7_ref_events_exclusive_with_push.2.1 (sampleBranchPayload false)
      (Or.inl rfl) (by decide) (by decide),
   C7_ref_events_exclusive_with_push.2.2 (samplePushPayload 2)
      ((parsePushEvent (samplePushPayload 2)).get!) (by decide)⟩

/-- C8: a pull-request payload whose action is outside the fixed allow-list
parses to `none`; an allowed action yields an event re-tagged `merged`
exactly when the action is `closed` and the merged flag is `true`, and
carrying the raw action in every other allowed case. -/
theorem C8_pull_request_allowlist_and_merged_tag :
    (∀ payload : Json,
        actionAllowed ["opened", "closed", "reopened", "edited"]
          (payload.get "action") = false →
        parsePullRequestEvent payload = none)
    ∧ (∀ (payload : Json) (s : String),
        payload.get "action" = Json.str s →
        ["opened", "closed", "reopened", "edited"].contains s = true →
        s ≠ "closed" →
        ∃ e, parsePullRequestEvent payload = some e ∧ e.type = .pull_request
          ∧ e.action = some s)
    ∧ (∀ payload : Json,
        payload.get "action" = Json.str "closed" →
        (payload.get "pull_request").get "merged" = Json.bool true →
        ∃ e, parsePullRequestEvent payload = some e ∧ e.type = .pull_request
          ∧ e.action = some "merged")
    ∧ (∀ payload : Json,
        payload.get "action" = Json.str "closed" →
        (payload.get "pull_request").get "merged" = Json.bool false →
        ∃ e, parsePullRequestEvent payload = some e ∧ e.type = .pull_request
          ∧ e.action = some "closed") := by
  refine ⟨?_, ?_, ?_, ?_⟩
  · intro payload hno
    simp only [parsePullRequestEvent]
    rw [hno]
    rfl
  · intro payload s ha hallow hsc
    have hne : ((Json.str s).asStr == "closed") = false := by
      simp [Json.asStr, hsc]
    have hparse : parsePullRequestEvent payload =
        some { type := .pull_request, displayType := getDisplayType .pull_request,
               repo := repoOf payload, actor := actorOf payload,
               action := some s,
               title := ((payload.get "pull_request").get "title").asStrOpt,
               number := ((payload.get "pull_request").get "number").asIntOpt,
               url := ((payload.get "pull_request").get "html_url").asStrOpt,
               body := ((payload.get "pull_request").get "body").asStrOpt } := by
      simp only [parsePullRequestEvent]
      rw [ha]
      simp only [actionAllowed, hallow, Bool.not_true, if_false, hne,
        Bool.false_and, if_neg]
      simp [Json.asStr]
    exact ⟨_, hparse, rfl, rfl⟩
  · intro payload ha hm
    have hparse : parsePullRequestEvent payload =
        some { type := .pull_request, displayType := getDisplayType .pull_request,
               repo := repoOf payload, actor := actorOf payload,
               action := some "merged",
               title := ((payload.get "pull_request").get "title").asStrOpt,
               number := ((payload.get "pull_request").get "number").asIntOpt,
               url := ((payload.get "pull_request").get "html_url").asStrOpt,
               body := ((payload.get "pull_request").get "body").asStrOpt } := by
      simp only [parsePullRequestEvent]
      rw [ha, hm]
      rfl
    exact ⟨_, hparse, rfl, rfl⟩
  · intro payload ha hm
    have hparse : parsePullRequestEvent payload =
        some { type := .pull_request, displayType := getDisplayType .pull_request,
               repo := repoOf payload, actor := actorOf payload,
               action := some "closed",
               title := ((payload.get "pull_request").get "title").asStrOpt,
               number := ((payload.get "pull_request").get "number").asIntOpt,
               url := ((payload.get "pull_request").get "html_url").asStrOpt,
               body := ((payload.get "pull_request").get "body").asStrOpt } := by
      simp only [parsePullRequestEvent]
      rw [ha, hm]
      rfl
    exact ⟨_, hparse, rfl, rfl⟩

/-- Witness for C8: an unrecognized action, an allowed non-closed action,
and the closed action with the merged flag set and unset, on concrete
payloads. -/
theorem C8_witness :
    parsePullRequestEvent (samplePrPayload "labeled" true) = none
    ∧ (∃ e, parsePullRequestEvent (samplePrPayload "opened" false) = some e
        ∧ e.type = .pull_request ∧ e.action = some "opened")
    ∧ (∃ e, parsePullRequestEvent (samplePrPayload "closed" true) = some e
        ∧ e.type = .pull_request ∧ e.action = some "merged")
    ∧ (∃ e, parsePullRequestEvent (samplePrPayload "closed" false) = some e
        ∧ e.type = .pull_request ∧ e.action = some "closed") :=
  ⟨C8_pull_request_allowlist_and_merged_tag.1 (samplePrPayload "labeled" true) (by decide),
   C8_pull_request_allowlist_and_merged_tag.2.1 (samplePrPayload "opened" false)
     "opened" rfl (by decide) (by decide),
   C8_pull_request_allowlist_and_merged_tag.2.2.1 (samplePrPayload "closed" true)
     rfl rfl,
   C8_pull_request_allowlist_and_merged_tag.2.2.2 (samplePrPayload "closed" false)
     rfl rfl⟩

/-- The fan-out trace only ever reports target resolution and dispatch. -/
theorem mem_pushTraceSteps (db : Db) (event : ParsedEvent) (s : Step)
    (h : s ∈ pushTraceSteps db event) :
    s = Step.targetsResolved ∨ s = Step.dispatched := by
  unfold pushTraceSteps at h
  split at h <;> simp at h <;> tauto

/-- C9: a request that reaches the final pipeline stage is answered with
HTTP 200, status `ok`, no error, and a `pushed` count equal to the number
of successful per-target deliveries among the dispatch results — whatever
the send transport does, per-target failures only lower the count. -/
theorem C9_final_stage_ok_with_success_count
    (env : Env) (cfg : Config) (db : Db) (req : Request) (payload : Json)
    (repo : String) (event : ParsedEvent)
    (hsig : strTruthy cfg.secret = false ∨
      (strTruthy req.signature = true ∧
        verifySignature env.hmacHex req.rawBody req.signature cfg.secret = true))
    (hparse : env.parseJson req.rawBody = some payload)
    (hrepo : (payload.get "repository").get "full_name" = Json.str repo)
    (hr : strTruthy repo = true)
    (hded : strTruthy req.deliveryId = true → isDelivered db req.deliveryId = false)
    (htr : cfg.allowUntrusted = false → isTrusted db repo = true)
    (hev : parseEvent req.eventName payload = some event) :
    (handleWebhook env cfg db req).status = 200
    ∧ (handleWebhook env cfg db req).body.status = some "ok"
    ∧ (handleWebhook env cfg db req).body.error = none
    ∧ (handleWebhook env cfg db req).body.reason = none
    ∧ (handleWebhook env cfg db req).body.pushed =
        some (((pushMessage env.bots env.send
            (if strTruthy req.deliveryId then
              recordDelivery db req.deliveryId repo req.eventName
             else db)
            event cfg.concurrency).filter (fun r => r.success)).length) := by
  rw [run_eq_stageDedup env cfg db req payload repo hsig hparse hrepo hr,
    stageDedup_pass env cfg db req payload repo hded,
    stageTrust_pass env cfg db req payload repo htr,
    stageNormalize_some env cfg db req payload repo event hev]
  by_cases hdid : strTruthy req.deliveryId = true
  · rw [stageRecord_withId env cfg db req repo event hdid, if_pos hdid, if_pos hdid]
    by_cases hA : cfg.allowUntrusted = true
    · rw [if_pos hA]
      exact ⟨rfl, rfl, rfl, rfl, rfl⟩
    · rw [if_neg hA]
      exact ⟨rfl, rfl, rfl, rfl, rfl⟩
  · have hrec : stageRecord env cfg db req repo event = stagePush env cfg db event := by
      unfold stageRecord
      rw [if_neg hdid]
    rw [hrec, if_neg hdid, if_neg hdid]
    by_cases hA : cfg.allowUntrusted = true
    · rw [if_pos hA]
      exact ⟨rfl, rfl, rfl, rfl, rfl⟩
    · rw [if_neg hA]
      exact ⟨rfl, rfl, rfl, rfl, rfl⟩

/-- Witness for C9: the concrete admitted push request is answered `ok` with
`pushed` equal to the one successful delivery. -/
theorem C9_witness :
    (handleWebhook sampleEnv sampleCfg sampleDb sampleReq).status = 200
    ∧ (handleWebhook sampleEnv sampleCfg sampleDb sampleReq).body.status = some "ok"
    ∧ (handleWebhook sampleEnv sampleCfg sampleDb sampleReq).body.error = none
    ∧ (handleWebhook sampleEnv sampleCfg sampleDb sampleReq).body.reason = none
    ∧ (handleWebhook sampleEnv sampleCfg sampleDb sampleReq).body.pushed =
        some (((pushMessage sampleEnv.bots sampleEnv.send
            (if strTruthy sampleReq.deliveryId then
              recordDelivery sampleDb "d1" "o/r" "push"
             else sampleDb)
            (parsePushEvent (samplePushPayload 2)).get!
            sampleCfg.concurrency).filter (fun r => r.success)).length) :=
  C9_final_stage_ok_with_success_count sampleEnv sampleCfg sampleDb sampleReq
    (samplePushPayload 2) "o/r" (parsePushEvent (samplePushPayload 2)).get!
    (Or.inl rfl) rfl rfl (by decide) (fun _ => by decide) (fun _ => by decide) rfl

/-- Without a delivery identifier, the ledger is never consulted nor
written anywhere in the pipeline, and the database is returned unchanged. -/
theorem noid_run_facts (env : Env) (cfg : Config) (db : Db) (req : Request)
    (hdid : strTruthy req.deliveryId = false) :
    Step.dedupChecked ∉ (handleWebhook env cfg db req).trace
    ∧ Step.recorded ∉ (handleWebhook env cfg db req).trace
    ∧ (handleWebhook env cfg db req).db = db := by
  have hpush : ∀ db0 event, Step.dedupChecked ∉ (stagePush env cfg db0 event).trace
      ∧ Step.recorded ∉ (stagePush env cfg db0 event).trace
      ∧ (stagePush env cfg db0 event).db = db0 := by
    intro db0 event
    refine ⟨?_, ?_, rfl⟩ <;>
      intro hmem <;>
      rcases mem_pushTraceSteps db0 event _ hmem with h | h <;> cases h
  have hrec : ∀ repo0 event,
      Step.dedupChecked ∉ (stageRecord env cfg db req repo0 event).trace
      ∧ Step.recorded ∉ (stageRecord env cfg db req repo0 event).trace
      ∧ (stageRecord env cfg db req repo0 event).db = db := by
    intro repo0 event
    unfold stageRecord
    rw [if_neg (by simp [hdid])]
    exact hpush db event
  have hnorm : ∀ payload0 repo0,
      Step.dedupChecked ∉ (stageNormalize env cfg db req payload0 repo0).trace
      ∧ Step.recorded ∉ (stageNormalize env cfg db req payload0 repo0).trace
      ∧ (stageNormalize env cfg db req payload0 repo0).db = db := by
    intro payload0 repo0
    unfold stageNormalize
    cases hpe : parseEvent req.eventName payload0 with
    | none => exact ⟨by simp, by simp, rfl⟩
    | some event =>
      rcases hrec repo0 event with ⟨h1, h2, h3⟩
      exact ⟨by simp [prependTrace, h1], by simp [prependTrace, h2], h3⟩
  have htrust : ∀ payload0 repo0,
      Step.dedupChecked ∉ (stageTrust env cfg db req payload0 repo0).trace
      ∧ Step.recorded ∉ (stageTrust env cfg db req payload0 repo0).trace
      ∧ (stageTrust env cfg db req payload0 repo0).db = db := by
    intro payload0 repo0
    unfold stageTrust
    by_cases hA : cfg.allowUntrusted = true
    · rw [if_neg (by simp [hA])]
      exact hnorm payload0 repo0
    · rw [if_pos (by simp [Bool.eq_false_iff.mpr hA])]
      by_cases hT : isTrusted db repo0 = true
      · rw [if_neg (by simp [hT])]
        rcases hnorm payload0 repo0 with ⟨h1, h2, h3⟩
        exact ⟨by simp [prependTrace, h1], by simp [prependTrace, h2], h3⟩
      · rw [if_pos (by simp [Bool.eq_false_iff.mpr hT])]
        exact ⟨by simp, by simp, rfl⟩
  have hded : ∀ payload0 repo0,
      Step.dedupChecked ∉ (stageDedup env cfg db req payload0 repo0).trace
      ∧ Step.recorded ∉ (stageDedup env cfg db req payload0 repo0).trace
      ∧ (stageDedup env cfg db req payload0 repo0).db = db := by
    intro payload0 repo0
    unfold stageDedup
    rw [if_neg (by simp [hdid])]
    exact htrust payload0 repo0
  have hrepo : ∀ payload0,
      Step.dedupChecked ∉ (stageRepo env cfg db req payload0).trace
      ∧ Step.recorded ∉ (stageRepo env cfg db req payload0).trace
      ∧ (stageRepo env cfg db req payload0).db = db := by
    intro payload0
    unfold stageRepo
    by_cases hj : ((payload0.get "repository").get "full_name").truthy = true
    · rw [if_neg (by simp [hj])]
      exact hded payload0 _
    · rw [if_pos (by simp [Bool.eq_false_iff.mpr hj])]
      exact ⟨by simp, by simp, rfl⟩
  have hpar : Step.dedupChecked ∉ (stageParse env cfg db req).trace
      ∧ Step.recorded ∉ (stageParse env cfg db req).trace
      ∧ (stageParse env cfg db req).db = db := by
    unfold stageParse
    cases hpj : env.parseJson req.rawBody with
    | none => exact ⟨by simp, by simp, rfl⟩
    | some payload0 => exact hrepo payload0
  unfold handleWebhook
  by_cases h1 : strTruthy cfg.secret = true
  · rw [if_pos h1]
    by_cases h2 : strTruthy req.signature = true
    · rw [if_neg (by simp [h2])]
      by_cases h3 : verifySignature env.hmacHex req.rawBody req.signature cfg.secret = true
      · rw [if_neg (by simp [h3])]
        exact hpar
      · rw [if_pos (by simp [Bool.eq_false_iff.mpr h3])]
        exact ⟨by simp, by simp, rfl⟩
    · rw [if_pos (by simp [Bool.eq_false_iff.mpr h2])]
      exact ⟨by simp, by simp, rfl⟩
  · rw [if_neg h1]
    exact hpar

/-- C10: a request without a delivery identifier (the header reads as the
empty string) never consults or writes the ledger and leaves the database
unchanged, so a second identical request is fully processed again — answered
`ok`, identical outcome, never `duplicate`. -/
theorem C10_missing_delivery_id_disables_dedup
    (env : Env) (cfg : Config) (db : Db) (req : Request)
    (hdid : req.deliveryId = "") :
    (Step.dedupChecked ∉ (handleWebhook env cfg db req).trace
     ∧ Step.recorded ∉ (handleWebhook env cfg db req).trace
     ∧ (handleWebhook env cfg db req).db = db)
    ∧ (∀ (payload : Json) (repo : String) (event : ParsedEvent),
        (strTruthy cfg.secret = false ∨
          (strTruthy req.signature = true ∧
            verifySignature env.hmacHex req.rawBody req.signature cfg.secret = true)) →
        env.parseJson req.rawBody = some payload →
        (payload.get "repository").get "full_name" = Json.str repo →
        strTruthy repo = true →
        (cfg.allowUntrusted = false → isTrusted db repo = true) →
        parseEvent req.eventName payload = some event →
        (handleWebhook env cfg db req).body.status = some "ok"
        ∧ handleWebhook env cfg (handleWebhook env cfg db req).db req =
            handleWebhook env cfg db req
        ∧ (handleWebhook env cfg (handleWebhook env cfg db req).db req).body.status ≠
            some "duplicate") := by
  have hdidb : strTruthy req.deliveryId = false := by
    rw [hdid]
    rfl
  have hfacts := noid_run_facts env cfg db req hdidb
  refine ⟨hfacts, ?_⟩
  intro payload repo event hsig hparse hrepo hr htr hev
  have hok : (handleWebhook env cfg db req).body.status = some "ok" := by
    rw [run_eq_stageDedup env cfg db req payload repo hsig hparse hrepo hr,
      stageDedup_pass env cfg db req payload repo (fun h => absurd h (by simp [hdidb])),
      if_neg (by simp [hdidb]),
      stageTrust_pass env cfg db req payload repo htr,
      stageNormalize_some env cfg db req payload repo event hev]
    have hrec : stageRecord env cfg db req repo event = stagePush env cfg db event := by
      unfold stageRecord
      rw [if_neg (by simp [hdidb])]
    rw [hrec]
    by_cases hA : cfg.allowUntrusted = true
    · rw [if_pos hA]
      rfl
    · rw [if_neg hA]
      rfl
  refine ⟨hok, ?_, ?_⟩
  · rw [hfacts.2.2]
  · rw [hfacts.2.2, hok]
    simp

/-- Witness for C10: the concrete push request without a delivery
identifier, processed twice with identical `ok` outcomes. -/
theorem C10_witness :
    (Step.dedupChecked ∉ (handleWebhook sampleEnv sampleCfg sampleDb sampleReqNoId).trace
     ∧ Step.recorded ∉ (handleWebhook sampleEnv sampleCfg sampleDb sampleReqNoId).trace
     ∧ (handleWebhook sampleEnv sampleCfg sampleDb sampleReqNoId).db = sampleDb)
    ∧ ((handleWebhook sampleEnv sampleCfg sampleDb sampleReqNoId).body.status = some "ok"
       ∧ handleWebhook sampleEnv sampleCfg
           (handleWebhook sampleEnv sampleCfg sampleDb sampleReqNoId).db sampleReqNoId =
           handleWebhook sampleEnv sampleCfg sampleDb sampleReqNoId
       ∧ (handleWebhook sampleEnv sampleCfg
           (handleWebhook sampleEnv sampleCfg sampleDb sampleReqNoId).db
           sampleReqNoId).body.status ≠ some "duplicate") :=
  ⟨(C10_missing_delivery_id_disables_dedup sampleEnv sampleCfg sampleDb sampleReqNoId rfl).1,
   (C10_missing_delivery_id_disables_dedup sampleEnv sampleCfg sampleDb sampleReqNoId rfl).2
     (samplePushPayload 2) "o/r" (parsePushEvent (samplePushPayload 2)).get!
     (Or.inl rfl) rfl rfl (by decide) (fun _ => by decide) rfl⟩

end GithubWebhookPusher
